import Mathlib

/-!
Verification development for the UMNOpenMotor core: the propellant
combustion model (`src/motorlib/propellant.py`) and the perimeter query
(`src/mathlib/_find_perimeter.py`).

Modelling conventions:
* Python floats are modelled as rationals (`ℚ`); the transcendental float
  operations `x ** y` (for a non-literal exponent) and `x ** 0.5` are
  abstracted as parameters `powf` and `sqrtf` of a `NumOps` record, since
  every claim under study concerns data flow, tab selection and control
  flow rather than floating-point rounding.
* Python exceptions (KeyError on an empty `closest` record, IndexError on
  an empty candidate list, `min`/`max` of an empty sequence) are modelled
  by `Option`/`Except`: `none`/`.error` marks the raising path.
* The alert message strings built with `str.format` are modelled by an
  `AlertData` payload carrying the same displayed tab numbers (index + 1).
-/

set_option maxRecDepth 100000

namespace Motor

/-- One row of the piecewise combustion table
(`PropellantTab` in `src/motorlib/propellant.py`). -/
structure Tab where
  minPressure : ℚ
  maxPressure : ℚ
  a : ℚ
  n : ℚ
  k : ℚ
  t : ℚ
  m : ℚ
deriving DecidableEq, Repr

/-- The propellant record (`Propellant` in `src/motorlib/propellant.py`):
a name, a density and an ordered list of tabs. -/
structure Propellant where
  name : String
  density : ℚ
  tabs : List Tab
deriving DecidableEq, Repr

/-- Abstracted numeric environment: the universal gas constant `R`
(modelled from the spec: `src/motorlib/constants.py` is not part of the
core sources; no claim depends on its value), the float power `powf` for
`x ** y`, the float square root `sqrtf` for `x ** 0.5`, and the
equilibrium solver (modelled from the spec: `scipy.optimize.fsolve`, a
bounded iterative root-finder taking a function, a seed and an iteration
cap). -/
structure NumOps where
  R : ℚ
  powf : ℚ → ℚ → ℚ
  sqrtf : ℚ → ℚ
  solver : (ℚ → Option ℚ) → ℚ → ℕ → Option ℚ

/-- The sentinel `1e100` initialising `closestPressure` in
`Propellant.getCombustionProperties`. -/
def sentinel : ℚ := 10 ^ 100

/-- The tuple `(a, n, k, t, m)` a tab contributes, as returned by
`getCombustionProperties`. -/
def tabProps (t : Tab) : ℚ × ℚ × ℚ × ℚ × ℚ := (t.a, t.n, t.k, t.t, t.m)

/-- Loop of `Propellant.getCombustionProperties` (lines 78-90): walk the
tabs; return the first tab whose open window contains `pressure`;
otherwise keep the running closest tab and distance, starting from the
empty record and `1e100`.  Returning `none` models the `KeyError` raised
by `closest['a']` when `closest` is still the empty dict. -/
def gcpGo (pressure : ℚ) : List Tab → Option Tab → ℚ → Option (ℚ × ℚ × ℚ × ℚ × ℚ)
  | [], closest, _ => closest.map tabProps
  | tab :: rest, closest, closestPressure =>
    if tab.minPressure < pressure ∧ pressure < tab.maxPressure then
      some (tabProps tab)
    else
      let s1 : Option Tab × ℚ :=
        if |pressure - tab.minPressure| < closestPressure then
          (some tab, |pressure - tab.minPressure|)
        else (closest, closestPressure)
      let s2 : Option Tab × ℚ :=
        if |pressure - tab.maxPressure| < s1.2 then
          (some tab, |pressure - tab.maxPressure|)
        else s1
      gcpGo pressure rest s2.1 s2.2

/-- `Propellant.getCombustionProperties(pressure)`. -/
def getCombustionProperties (prop : Propellant) (pressure : ℚ) :
    Option (ℚ × ℚ × ℚ × ℚ × ℚ) :=
  gcpGo pressure prop.tabs none sentinel

/-- `Propellant.getMinimumValidPressure`: `min` over all `minPressure`
values; `none` models the `ValueError` of `min([])`. -/
def getMinimumValidPressure (prop : Propellant) : Option ℚ :=
  match prop.tabs.map (·.minPressure) with
  | [] => none
  | x :: xs => some (xs.foldl min x)

/-- `Propellant.getMaximumValidPressure`: `max` over all `maxPressure`
values; `none` models the `ValueError` of `max([])`. -/
def getMaximumValidPressure (prop : Propellant) : Option ℚ :=
  match prop.tabs.map (·.maxPressure) with
  | [] => none
  | x :: xs => some (xs.foldl max x)

/-- `Propellant.getCStar(pressure)` (lines 34-39):
`num = (gamma * R / molarMass * temp) ** 0.5`,
`denom = gamma * ((2/(gamma+1)) ** ((gamma+1)/(gamma-1))) ** 0.5`,
result `num / denom`, with the tuple from `getCombustionProperties`. -/
def getCStar (ops : NumOps) (prop : Propellant) (pressure : ℚ) : Option ℚ :=
  (getCombustionProperties prop pressure).map fun p =>
    let gamma := p.2.2.1
    let temp := p.2.2.2.1
    let molarMass := p.2.2.2.2
    let num := ops.sqrtf (gamma * ops.R / molarMass * temp)
    let denom := gamma * ops.sqrtf (ops.powf (2 / (gamma + 1)) ((gamma + 1) / (gamma - 1)))
    num / denom

/-- `Propellant.getBurnRate(pressure)` (lines 41-44):
`ballA * (pressure ** ballN)` with the tuple from
`getCombustionProperties`. -/
def getBurnRate (ops : NumOps) (prop : Propellant) (pressure : ℚ) : Option ℚ :=
  (getCombustionProperties prop pressure).map fun p =>
    p.1 * ops.powf pressure p.2.1

/-- The per-tab pressure computed inside `getPressureFromKn`
(lines 50-54): `num = kn * density * a`, `exponent = 1 / (1 - n)`,
`denom = ((k / ((R / m) * t)) * ((2/(k+1)) ** ((k+1)/(k-1)))) ** 0.5`,
result `(num / denom) ** exponent`. -/
def pfkPressure (ops : NumOps) (density kn : ℚ) (t : Tab) : ℚ :=
  let num := kn * density * t.a
  let exponent := 1 / (1 - t.n)
  let denom := ops.sqrtf ((t.k / ((ops.R / t.m) * t.t)) *
    ops.powf (2 / (t.k + 1)) ((t.k + 1) / (t.k - 1)))
  ops.powf (num / denom) exponent

/-- Stable insertion used to model Python's stable `list.sort(key=...)`
on `(error, pressure)` pairs: an element is inserted after all existing
entries with a key less than or equal to its own. -/
def insSorted (x : ℚ × ℚ) : List (ℚ × ℚ) → List (ℚ × ℚ)
  | [] => [x]
  | y :: ys => if x.1 ≤ y.1 then x :: y :: ys else y :: insSorted x ys

/-- Stable sort by the first component, modelling Python's stable
`list.sort(key=lambda x: x[0])`. -/
def sortStable : List (ℚ × ℚ) → List (ℚ × ℚ)
  | [] => []
  | x :: xs => insSorted x (sortStable xs)

/-- Loop of `Propellant.getPressureFromKn` (lines 49-69): walk the tabs,
returning the computed pressure of the first accepted tab; otherwise
accumulate `(error, pressure)` candidates, and at the end sort them by
error and take the first pressure.  `none` models the `IndexError` of
`tabPressures[0]` on an empty candidate list. -/
def pfkGo (ops : NumOps) (prop : Propellant) (kn : ℚ) :
    List Tab → List (ℚ × ℚ) → Option ℚ
  | [], acc => ((sortStable acc).head?).map (·.2)
  | tab :: rest, acc =>
    let tabPressure := pfkPressure ops prop.density kn tab
    if some tab.minPressure = getMinimumValidPressure prop ∧
        tabPressure < tab.maxPressure then
      some tabPressure
    else if some tab.maxPressure = getMaximumValidPressure prop ∧
        tab.minPressure < tabPressure then
      some tabPressure
    else if tab.minPressure < tabPressure ∧ tabPressure < tab.maxPressure then
      some tabPressure
    else
      pfkGo ops prop kn rest
        (acc ++ [(min |tab.minPressure - tabPressure| |tabPressure - tab.maxPressure|,
          tabPressure)])

/-- `Propellant.getPressureFromKn(kn)`. -/
def getPressureFromKn (ops : NumOps) (prop : Propellant) (kn : ℚ) : Option ℚ :=
  pfkGo ops prop kn prop.tabs []

/-- `Propellant.getKnFromPressure(pressure)` (lines 71-74): solve
`getPressureFromKn(kn) - pressure = 0` with the equilibrium solver,
seeded at 250 with an iteration cap of 1000. -/
def getKnFromPressure (ops : NumOps) (prop : Propellant) (pressure : ℚ) : Option ℚ :=
  ops.solver (fun kn => (getPressureFromKn ops prop kn).map (· - pressure)) 250 1000

/-- Alert severity (`SimAlertLevel` in `src/motorlib/simResult.py`). -/
inductive SimAlertLevel where
  | errorLevel
  | warningLevel
deriving DecidableEq, Repr

/-- Alert category (`SimAlertType.VALUE` is the only category the
propellant code uses). -/
inductive SimAlertType where
  | value
deriving DecidableEq, Repr

/-- Payload of an alert message, carrying the displayed tab numbers
(`tabId + 1`, as interpolated by `str.format` in the source). -/
inductive AlertData where
  | samePressures (dispTab : ℕ)
  | reversedLimits (dispTab : ℕ)
  | overlappingRanges (dispTab dispOther : ℕ)
  | pressureDeviated
deriving DecidableEq, Repr

/-- A simulation alert (`SimAlert` in `src/motorlib/simResult.py`). -/
structure SimAlert where
  level : SimAlertLevel
  type : SimAlertType
  data : AlertData
  subject : String
deriving DecidableEq, Repr

/-- The degenerate-tab alert of `getErrors` (line 107). -/
def degAlert (tabId : ℕ) : SimAlert :=
  ⟨.errorLevel, .value, .samePressures (tabId + 1), "Propellant"⟩

/-- The reversed-limits alert of `getErrors` (line 110). -/
def revAlert (tabId : ℕ) : SimAlert :=
  ⟨.errorLevel, .value, .reversedLimits (tabId + 1), "Propellant"⟩

/-- The overlapping-ranges alert of `getErrors` (line 115). -/
def overlapAlert (tabId otherTabId : ℕ) : SimAlert :=
  ⟨.errorLevel, .value, .overlappingRanges (tabId + 1) (otherTabId + 1), "Propellant"⟩

/-- The out-of-range warning of `getPressureErrors` (line 126). -/
def deviationAlert : SimAlert :=
  ⟨.warningLevel, .value, .pressureDeviated, "Propellant"⟩

/-- Alerts appended for the pair `(tabId, tab)` against `(otherTabId,
otherTab)` in the inner loop of `getErrors` (lines 111-115). -/
def overlapAlertsFor (tabId : ℕ) (tab : Tab) (p : ℕ × Tab) : List SimAlert :=
  if tabId ≠ p.1 ∧ p.2.minPressure < tab.maxPressure ∧
      tab.maxPressure < p.2.maxPressure then
    [overlapAlert tabId p.1]
  else []

/-- Alerts appended for one `(tabId, tab)` pair in the outer loop of
`getErrors` (lines 104-115): the degenerate check, the reversed check,
then the inner loop over all enumerated tabs. -/
def errorsFor (tabs : List Tab) (tabId : ℕ) (tab : Tab) : List SimAlert :=
  (if tab.maxPressure = tab.minPressure then [degAlert tabId] else [])
    ++ (if tab.maxPressure < tab.minPressure then [revAlert tabId] else [])
    ++ (List.enumFrom 0 tabs).flatMap (overlapAlertsFor tabId tab)

/-- `Propellant.getErrors()` (lines 100-116). -/
def getErrors (prop : Propellant) : List SimAlert :=
  (List.enumFrom 0 prop.tabs).flatMap fun p => errorsFor prop.tabs p.1 p.2

/-- `Propellant.getPressureErrors(pressure)` (lines 118-127): return the
empty list as soon as some tab's open interval contains `pressure`;
otherwise one warning alert. -/
def getPressureErrors (prop : Propellant) (pressure : ℚ) : List SimAlert :=
  match prop.tabs.find? (fun t =>
      decide (t.minPressure < pressure) && decide (pressure < t.maxPressure)) with
  | some _ => []
  | none => [deviationAlert]

/-- `Propellant.addTab(tab)` (lines 129-131): append one tab. -/
def addTab (prop : Propellant) (tab : Tab) : Propellant :=
  { prop with tabs := prop.tabs ++ [tab] }

/-- Distance from `pressure` to the nearest boundary of a tab:
`min |pressure - minPressure| |pressure - maxPressure|`. -/
def boundaryDist (pressure : ℚ) (t : Tab) : ℚ :=
  min |pressure - t.minPressure| |pressure - t.maxPressure|

/-- The first tab (in stored order) minimising `boundaryDist pressure`:
ties are broken in favour of the earlier tab. -/
def firstMinTab (pressure : ℚ) : List Tab → Option Tab
  | [] => none
  | t :: ts =>
    match firstMinTab pressure ts with
    | none => some t
    | some m => if boundaryDist pressure t ≤ boundaryDist pressure m then some t else some m

/-- The tab-selection rule exactly as the specification states it: first
tab whose half-open window `[minPressure, maxPressure)` contains the
pressure, otherwise the first tab minimising the boundary distance. -/
def claimSelectHalfOpen (tabs : List Tab) (pressure : ℚ) : Option Tab :=
  match tabs.find? (fun t =>
      decide (t.minPressure ≤ pressure) && decide (pressure < t.maxPressure)) with
  | some t => some t
  | none => firstMinTab pressure tabs

/-- The amended tab-selection rule: first tab whose open interval
`(minPressure, maxPressure)` contains the pressure; otherwise the first
tab minimising the boundary distance, provided that distance is below
the `1e100` sentinel (otherwise the lookup fails). -/
def selectTab (tabs : List Tab) (pressure : ℚ) : Option Tab :=
  match tabs.find? (fun t =>
      decide (t.minPressure < pressure) && decide (pressure < t.maxPressure)) with
  | some t => some t
  | none =>
    match firstMinTab pressure tabs with
    | some m => if boundaryDist pressure m < sentinel then some m else none
    | none => none

/-- The first pair (in stored order) minimising the first component:
ties are broken in favour of the earlier pair.  This renders the claim's
fallback "candidate with smallest recorded distance, ties broken by
first stored order". -/
def firstMinBy : List (ℚ × ℚ) → Option (ℚ × ℚ)
  | [] => none
  | x :: xs =>
    match firstMinBy xs with
    | none => some x
    | some m => if x.1 ≤ m.1 then some x else some m

/-- The acceptance test of the claimed `getPressureFromKn` algorithm for
one tab: (a) it owns the global minimum `minPressure` and the computed
pressure is below `maxPressure`; (b) it owns the global maximum
`maxPressure` and `minPressure` is below the computed pressure;
(c) the computed pressure lies strictly between the two boundaries. -/
def acceptTab (ops : NumOps) (prop : Propellant) (kn : ℚ) (t : Tab) : Prop :=
  (some t.minPressure = getMinimumValidPressure prop ∧
    pfkPressure ops prop.density kn t < t.maxPressure) ∨
  (some t.maxPressure = getMaximumValidPressure prop ∧
    t.minPressure < pfkPressure ops prop.density kn t) ∨
  (t.minPressure < pfkPressure ops prop.density kn t ∧
    pfkPressure ops prop.density kn t < t.maxPressure)

instance (ops : NumOps) (prop : Propellant) (kn : ℚ) (t : Tab) :
    Decidable (acceptTab ops prop kn t) := by
  unfold acceptTab; infer_instance

/-- The claimed `getPressureFromKn` algorithm, as the specification
words it: compute each tab's pressure in stored order, return the first
accepted one; if none is accepted, return the pressure of the candidate
with the smallest distance to its nearest boundary, ties broken by
stored order. -/
def pressureFromKnSpec (ops : NumOps) (prop : Propellant) (kn : ℚ) : Option ℚ :=
  match prop.tabs.find? (fun t => decide (acceptTab ops prop kn t)) with
  | some t => some (pfkPressure ops prop.density kn t)
  | none =>
    (firstMinBy (prop.tabs.map (fun t =>
      (boundaryDist (pfkPressure ops prop.density kn t) t,
        pfkPressure ops prop.density kn t)))).map (·.2)

/-- Does the tab at index `i` satisfy `maxPressure == minPressure`? -/
def degCond (prop : Propellant) (i : ℕ) : Bool :=
  ((prop.tabs.get? i).map (fun t => decide (t.maxPressure = t.minPressure))).getD false

/-- Does the tab at index `i` satisfy `maxPressure < minPressure`? -/
def revCond (prop : Propellant) (i : ℕ) : Bool :=
  ((prop.tabs.get? i).map (fun t => decide (t.maxPressure < t.minPressure))).getD false

/-- Do distinct indices `i`, `j` exist with
`tabs[j].minPressure < tabs[i].maxPressure < tabs[j].maxPressure`? -/
def overlapCond (prop : Propellant) (i j : ℕ) : Bool :=
  ((prop.tabs.get? i).map (fun tab =>
    ((prop.tabs.get? j).map (fun other =>
      decide (i ≠ j) && decide (other.minPressure < tab.maxPressure) &&
        decide (tab.maxPressure < other.maxPressure))).getD false)).getD false

/-- Number of occurrences of one alert in a list of alerts. -/
def countAlert (a : SimAlert) (l : List SimAlert) : ℕ :=
  l.countP (fun x => decide (x = a))

/-- State-passing form of `getCStar`: the method reads `self` but never
assigns to it, so the post-state is the input state. -/
def getCStar_st (ops : NumOps) (prop : Propellant) (pressure : ℚ) :
    Option ℚ × Propellant :=
  (getCStar ops prop pressure, prop)

/-- State-passing form of `getBurnRate`. -/
def getBurnRate_st (ops : NumOps) (prop : Propellant) (pressure : ℚ) :
    Option ℚ × Propellant :=
  (getBurnRate ops prop pressure, prop)

/-- State-passing form of `getPressureFromKn`. -/
def getPressureFromKn_st (ops : NumOps) (prop : Propellant) (kn : ℚ) :
    Option ℚ × Propellant :=
  (getPressureFromKn ops prop kn, prop)

/-- State-passing form of `getKnFromPressure`. -/
def getKnFromPressure_st (ops : NumOps) (prop : Propellant) (pressure : ℚ) :
    Option ℚ × Propellant :=
  (getKnFromPressure ops prop pressure, prop)

/-- State-passing form of `getCombustionProperties`. -/
def getCombustionProperties_st (prop : Propellant) (pressure : ℚ) :
    Option (ℚ × ℚ × ℚ × ℚ × ℚ) × Propellant :=
  (getCombustionProperties prop pressure, prop)

/-- State-passing form of `getMinimumValidPressure`. -/
def getMinimumValidPressure_st (prop : Propellant) : Option ℚ × Propellant :=
  (getMinimumValidPressure prop, prop)

/-- State-passing form of `getMaximumValidPressure`. -/
def getMaximumValidPressure_st (prop : Propellant) : Option ℚ × Propellant :=
  (getMaximumValidPressure prop, prop)

/-- State-passing form of `getErrors`. -/
def getErrors_st (prop : Propellant) : List SimAlert × Propellant :=
  (getErrors prop, prop)

/-- State-passing form of `getPressureErrors`. -/
def getPressureErrors_st (prop : Propellant) (pressure : ℚ) :
    List SimAlert × Propellant :=
  (getPressureErrors prop pressure, prop)

/-- Concrete numeric environment used by the evaluation witnesses. -/
def testOps : NumOps where
  R := 1
  powf := fun x y => x + y
  sqrtf := fun x => x + 1
  solver := fun f seed _ => f seed

/-- Concrete tab `[0, 100]` with properties `(1, 2, 3, 4, 5)`. -/
def tabA : Tab := ⟨0, 100, 1, 2, 3, 4, 5⟩

/-- Concrete tab `[100, 200]` with properties `(6, 7, 8, 9, 10)`. -/
def tabB : Tab := ⟨100, 200, 6, 7, 8, 9, 10⟩

/-- Two adjacent tabs sharing the boundary pressure 100. -/
def propAB : Propellant := ⟨"AB", 1, [tabA, tabB]⟩

/-- A single-tab propellant over `[0, 100]`. -/
def propA : Propellant := ⟨"A", 1, [tabA]⟩

/-- A propellant with no tabs. -/
def propEmpty : Propellant := ⟨"empty", 1, []⟩

/-- Overlapping tabs `[0, 100]` and `[50, 150]` from the specification's
test vector. -/
def propOverlap : Propellant :=
  ⟨"overlap", 1, [⟨0, 100, 0, 0, 0, 0, 0⟩, ⟨50, 150, 0, 0, 0, 0, 0⟩]⟩

/-- The degenerate tab `[100, 100]` from the specification's test
vector. -/
def propDegenerate : Propellant := ⟨"deg", 1, [⟨100, 100, 0, 0, 0, 0, 0⟩]⟩

/-- The reversed tab `[100, 50]` from the specification's test vector. -/
def propReversed : Propellant := ⟨"rev", 1, [⟨100, 50, 0, 0, 0, 0, 0⟩]⟩

end Motor


namespace Perimeter

/-- A raster as handed to `find_perimeter`: a numpy array modelled by its
shape (one entry per dimension) and its (2-indexed) element function. -/
structure Raster where
  shape : List ℕ
  data : ℕ → ℕ → ℚ

/-- Failure modes of `find_perimeter`: the two `ValueError`s of
`src/mathlib/_find_perimeter.py` (lines 70-73) and the `IndexError`
raised by `image.shape[1]` (or `image.shape[0]`) when the array has
fewer dimensions than the shape check dereferences. -/
inductive FPError where
  | invalidShape
  | invalidDimension
  | indexError
deriving DecidableEq, Repr

/-- Modelled from the spec (section 4.1; the marching-squares core
`_find_perimeter_cy._get_perimeter` is not part of the sources): linear
interpolation of the crossing position along one cell edge,
`pos = (level - vStart) / (vEnd - vStart)`, with the documented midpoint
tie-break when `vStart == vEnd`. -/
def interp (level v0 v1 : ℚ) : ℚ :=
  if v0 = v1 then 1 / 2 else (level - v0) / (v1 - v0)

/-- Modelled from the spec (section 4.1): the marching-squares case table
for one unit cell with corner values `ul ur ll lr` (upper-left,
upper-right, lower-left, lower-right).  Corners are classified as above
`level` by a strict comparison; each case emits the segments between the
interpolated edge crossings, with the two saddle cases resolved by
comparing the cell's average corner value against `level`.  Points are
`(x, y)` offsets within the cell. -/
def cellSegments (level ul ur ll lr : ℚ) : List ((ℚ × ℚ) × (ℚ × ℚ)) :=
  let pTop : ℚ × ℚ := (interp level ul ur, 0)
  let pBot : ℚ × ℚ := (interp level ll lr, 1)
  let pLeft : ℚ × ℚ := (0, interp level ul ll)
  let pRight : ℚ × ℚ := (1, interp level ur lr)
  match decide (level < ul), decide (level < ur),
      decide (level < ll), decide (level < lr) with
  | false, false, false, false => []
  | true, false, false, false => [(pTop, pLeft)]
  | false, true, false, false => [(pTop, pRight)]
  | false, false, true, false => [(pLeft, pBot)]
  | false, false, false, true => [(pRight, pBot)]
  | true, true, false, false => [(pLeft, pRight)]
  | false, false, true, true => [(pLeft, pRight)]
  | true, false, true, false => [(pTop, pBot)]
  | false, true, false, true => [(pTop, pBot)]
  | true, false, false, true =>
    if level < (ul + ur + ll + lr) / 4 then [(pTop, pRight), (pLeft, pBot)]
    else [(pTop, pLeft), (pRight, pBot)]
  | false, true, true, false =>
    if level < (ul + ur + ll + lr) / 4 then [(pTop, pLeft), (pRight, pBot)]
    else [(pTop, pRight), (pLeft, pBot)]
  | true, true, true, false => [(pRight, pBot)]
  | true, true, false, true => [(pLeft, pBot)]
  | true, false, true, true => [(pTop, pRight)]
  | false, true, true, true => [(pTop, pLeft)]
  | true, true, true, true => []

/-- Euclidean length of one emitted segment, with unit grid spacing. -/
noncomputable def segLen (s : (ℚ × ℚ) × (ℚ × ℚ)) : ℝ :=
  Real.sqrt (((s.2.1 - s.1.1 : ℚ) : ℝ) ^ 2 + ((s.2.2 - s.1.2 : ℚ) : ℝ) ^ 2)

/-- Summed segment length contributed by the unit cell whose upper-left
corner is grid point `(r, c)`. -/
noncomputable def cellPerimAt (data : ℕ → ℕ → ℚ) (level : ℚ) (r c : ℕ) : ℝ :=
  ((cellSegments level (data r c) (data r (c + 1))
    (data (r + 1) c) (data (r + 1) (c + 1))).map segLen).sum

/-- Modelled from the spec (sections 4.1-4.2): the perimeter accumulator
sums the segment lengths emitted for each of the `(H-1) × (W-1)` unit
cells. -/
noncomputable def getPerimeter (h w : ℕ) (data : ℕ → ℕ → ℚ) (level : ℚ) : ℝ :=
  ∑ r ∈ Finset.range (h - 1), ∑ c ∈ Finset.range (w - 1), cellPerimAt data level r c

/-- `find_perimeter(image, level)` (`src/mathlib/_find_perimeter.py`,
lines 70-74): Python first evaluates `image.shape[0] < 2 or
image.shape[1] < 2` (an out-of-range shape index raises `IndexError`,
and the `or` short-circuits), raising the 2x2 `ValueError` if it holds;
then checks `image.ndim != 2`; then calls the marching-squares core. -/
noncomputable def find_perimeter (image : Raster) (level : ℚ) : Except FPError ℝ :=
  match image.shape.get? 0 with
  | none => .error .indexError
  | some d0 =>
    if d0 < 2 then .error .invalidShape
    else
      match image.shape.get? 1 with
      | none => .error .indexError
      | some d1 =>
        if d1 < 2 then .error .invalidShape
        else if image.shape.length ≠ 2 then .error .invalidDimension
        else .ok (getPerimeter d0 d1 image.data level)

end Perimeter


namespace Perimeter

/-- A rank-2 raster of zeros with a single 1 at position `(ci, cj)`. -/
def cornerRaster (h w ci cj : ℕ) : Raster :=
  ⟨[h, w], fun r c => if r = ci ∧ c = cj then 1 else 0⟩

/-- A rank-1 raster of five zeros, used to exercise the shape checks. -/
def rank1Raster : Raster := ⟨[5], fun _ _ => 0⟩

/-- A rank-3 raster of zeros with a first dimension of 1. -/
def rank3Raster : Raster := ⟨[1, 5, 5], fun _ _ => 0⟩

end Perimeter

namespace Motor

/-- Unfolding the `getCombustionProperties` loop one step: either the
head tab's open window contains the pressure, or the running closest
record is updated exactly when the head tab's boundary distance
strictly improves on it. -/
theorem gcpGo_cons (p : ℚ) (t : Tab) (rest : List Tab) (closest : Option Tab) (cp : ℚ) :
    gcpGo p (t :: rest) closest cp =
      if t.minPressure < p ∧ p < t.maxPressure then some (tabProps t)
      else if boundaryDist p t < cp then gcpGo p rest (some t) (boundaryDist p t)
      else gcpGo p rest closest cp := by
  simp only [gcpGo]
  by_cases hin : t.minPressure < p ∧ p < t.maxPressure
  · simp only [if_pos hin]
  · simp only [if_neg hin]
    by_cases h1 : |p - t.minPressure| < cp
    · rw [if_pos h1]
      by_cases h2 : |p - t.maxPressure| < (some t, |p - t.minPressure|).2
      · rw [if_pos h2]
        have hb : boundaryDist p t = |p - t.maxPressure| := min_eq_right (le_of_lt h2)
        rw [hb, if_pos (lt_trans h2 h1)]
      · rw [if_neg h2]
        have h2' : |p - t.minPressure| ≤ |p - t.maxPressure| := not_lt.mp h2
        have hb : boundaryDist p t = |p - t.minPressure| := min_eq_left h2'
        rw [hb, if_pos h1]
    · rw [if_neg h1]
      by_cases h2 : |p - t.maxPressure| < (closest, cp).2
      · rw [if_pos h2]
        have hb : boundaryDist p t = |p - t.maxPressure| :=
          min_eq_right (le_of_lt (lt_of_lt_of_le h2 (not_lt.mp h1)))
        rw [hb, if_pos h2]
      · rw [if_neg h2]
        have hb : ¬ boundaryDist p t < cp :=
          not_lt.mpr (le_min (not_lt.mp h1) (not_lt.mp h2))
        rw [if_neg hb]

/-- The in-window predicate used by the selection rules, as a boolean. -/
theorem inWindow_decide (p : ℚ) (t : Tab) :
    (decide (t.minPressure < p) && decide (p < t.maxPressure)) = true ↔
      (t.minPressure < p ∧ p < t.maxPressure) := by
  simp

/-- A non-empty tab list always has a first boundary-distance
minimiser. -/
theorem firstMinTab_isSome (p : ℚ) (t : Tab) (ts : List Tab) :
    (firstMinTab p (t :: ts)).isSome = true := by
  simp only [firstMinTab]
  rcases h : firstMinTab p ts with _ | m
  · rfl
  · show (if boundaryDist p t ≤ boundaryDist p m then some t else some m).isSome = true
    split <;> rfl

/-- Full characterisation of the `getCombustionProperties` loop: from an
arbitrary running state, it returns the first tab whose open window
contains the pressure, and otherwise improves the running closest record
with the first boundary-distance minimiser of the remaining tabs. -/
theorem gcpGo_spec (p : ℚ) :
    ∀ (ts : List Tab) (closest : Option Tab) (cp : ℚ),
      gcpGo p ts closest cp =
        match ts.find? (fun t =>
            decide (t.minPressure < p) && decide (p < t.maxPressure)) with
        | some t => some (tabProps t)
        | none =>
          (match firstMinTab p ts with
            | some m => if boundaryDist p m < cp then some m else closest
            | none => closest).map tabProps := by
  intro ts
  induction ts with
  | nil => intro closest cp; simp [gcpGo, firstMinTab]
  | cons t rest ih =>
    intro closest cp
    rw [gcpGo_cons]
    by_cases hin : t.minPressure < p ∧ p < t.maxPressure
    · rw [List.find?_cons_of_pos _ (by simp [hin]), if_pos hin]
    · rw [List.find?_cons_of_neg _ (by simp [hin]), if_neg hin]
      simp only [ih]
      rcases hrest : rest.find? (fun t =>
          decide (t.minPressure < p) && decide (p < t.maxPressure)) with _ | u
      · rcases hfm : firstMinTab p rest with _ | m
        · have hrn : rest = [] := by
            cases rest with
            | nil => rfl
            | cons a l =>
              have hs := firstMinTab_isSome p a l
              rw [hfm] at hs
              exact absurd hs (by simp)
          subst hrn
          by_cases hd : boundaryDist p t < cp <;>
            simp [firstMinTab, hd, hrest]
        · simp only [firstMinTab, hfm, hrest]
          by_cases htm : boundaryDist p t ≤ boundaryDist p m
          · rw [if_pos htm]
            by_cases hd : boundaryDist p t < cp
            · have hnm : ¬ boundaryDist p m < boundaryDist p t := not_lt.mpr htm
              simp [hnm, hd]
            · have hnm : ¬ boundaryDist p m < cp :=
                fun hc => hd (lt_of_le_of_lt htm hc)
              simp [hnm, hd]
          · rw [if_neg htm]
            push_neg at htm
            by_cases hd : boundaryDist p t < cp
            · simp [htm, htm.trans hd, hd]
            · simp [hd]
      · by_cases hd : boundaryDist p t < cp <;> simp [hd, hrest]

/-- C1 (amended): `getCombustionProperties` — the shared tab selection of
`getBurnRate` and `getCStar` — uses the first tab whose OPEN interval
`(minPressure, maxPressure)` contains the pressure; otherwise the first
tab minimising `min(|p - minPressure|, |p - maxPressure|)` (ties to the
first in stored order), provided that minimal distance is below the
`1e100` sentinel, and fails otherwise. -/
theorem getCombustionProperties_eq_selectTab (prop : Propellant) (pressure : ℚ) :
    getCombustionProperties prop pressure =
      (selectTab prop.tabs pressure).map tabProps := by
  rw [getCombustionProperties, gcpGo_spec, selectTab]
  rcases hf : prop.tabs.find? (fun t =>
      decide (t.minPressure < pressure) && decide (pressure < t.maxPressure)) with _ | u <;>
    rw [hf] <;> rfl

/-- C1 fails as stated: at the shared boundary pressure 100 of the two
tabs of `propAB`, the half-open specification rule selects the second
tab, while the code returns the first tab's properties; and at the huge
pressure `10^101` the specification rule selects the single tab of
`propA`, while the code raises (models as `none`) because every distance
reaches the `1e100` sentinel. -/
theorem claimSelectHalfOpen_counterexample :
    getCombustionProperties propAB 100 = some (tabProps tabA) ∧
    claimSelectHalfOpen propAB.tabs 100 = some tabB ∧
    tabProps tabA ≠ tabProps tabB ∧
    getCombustionProperties propA (10 * sentinel) = none ∧
    claimSelectHalfOpen propA.tabs (10 * sentinel) = some tabA := by
  refine ⟨?_, by decide, by decide, ?_, ?_⟩
  · simp [getCombustionProperties, gcpGo, propAB, tabA, tabB, tabProps, sentinel]
    norm_num
  · simp [getCombustionProperties, gcpGo, propA, tabA, tabProps, sentinel]
    norm_num
  · simp [claimSelectHalfOpen, firstMinTab, boundaryDist, propA, tabA, sentinel]
    norm_num

/-- C5: `getPressureErrors` returns the empty list exactly when some
tab's open interval contains the pressure, and exactly the single
out-of-range warning alert otherwise. -/
theorem getPressureErrors_spec (prop : Propellant) (pressure : ℚ) :
    (getPressureErrors prop pressure = [] ↔
      ∃ t ∈ prop.tabs, t.minPressure < pressure ∧ pressure < t.maxPressure) ∧
    (getPressureErrors prop pressure = [deviationAlert] ↔
      ∀ t ∈ prop.tabs, ¬(t.minPressure < pressure ∧ pressure < t.maxPressure)) := by
  unfold getPressureErrors
  rcases hf : prop.tabs.find? (fun t =>
      decide (t.minPressure < pressure) && decide (pressure < t.maxPressure)) with _ | u <;>
    rw [hf]
  · have hall := List.find?_eq_none.mp hf
    constructor
    · constructor
      · intro h; exact absurd h (by simp)
      · rintro ⟨t, ht, h1, h2⟩
        exact absurd (by simp [h1, h2]) (hall t ht)
    · constructor
      · intro _ t ht hw
        exact (hall t ht) (by simp [hw.1, hw.2])
      · intro _; rfl
  · have hmem := List.mem_of_find?_eq_some hf
    have hpu := List.find?_some hf
    simp only [Bool.and_eq_true, decide_eq_true_eq] at hpu
    constructor
    · constructor
      · intro _; exact ⟨u, hmem, hpu⟩
      · intro _; rfl
    · constructor
      · intro h; exact absurd h (by simp [deviationAlert])
      · intro hall; exact absurd hpu (hall u hmem)

/-- C6: whenever the shared tab-selection routine
(`getCombustionProperties`) yields the tuple `(a, n, k, t, m)`, the burn
rate is `a * pressure ** n` with that tab's `a` and `n`. -/
theorem getBurnRate_formula (ops : NumOps) (prop : Propellant)
    (pressure a n k t m : ℚ)
    (h : getCombustionProperties prop pressure = some (a, n, k, t, m)) :
    getBurnRate ops prop pressure = some (a * ops.powf pressure n) := by
  rw [getBurnRate, h]; rfl

/-- Evaluation witness for the burn-rate formula on a concrete
single-tab propellant. -/
theorem gcp_propA_50 : getCombustionProperties propA 50 = some (1, 2, 3, 4, 5) := by
  simp [getCombustionProperties, gcpGo, propA, tabA, tabProps, sentinel]
  norm_num

theorem getBurnRate_formula_witness :
    getCombustionProperties propA 50 = some (1, 2, 3, 4, 5) ∧
    getBurnRate testOps propA 50 = some (1 * testOps.powf 50 2) :=
  ⟨gcp_propA_50, getBurnRate_formula testOps propA 50 1 2 3 4 5 gcp_propA_50⟩

/-- C7: whenever the shared tab-selection routine yields the tuple
`(a, n, k, t, m)`, the characteristic velocity is
`sqrt(k * R / m * t) / (k * ((2/(k+1)) ** ((k+1)/(k-1))) ** 0.5)` with
that tab's `k`, `t`, `m` and the universal gas constant `R`. -/
theorem getCStar_formula (ops : NumOps) (prop : Propellant)
    (pressure a n k t m : ℚ)
    (h : getCombustionProperties prop pressure = some (a, n, k, t, m)) :
    getCStar ops prop pressure =
      some (ops.sqrtf (k * ops.R / m * t) /
        (k * ops.sqrtf (ops.powf (2 / (k + 1)) ((k + 1) / (k - 1))))) := by
  rw [getCStar, h]; rfl

/-- Evaluation witness for the characteristic-velocity formula on a
concrete single-tab propellant. -/
theorem getCStar_formula_witness :
    getCombustionProperties propA 50 = some (1, 2, 3, 4, 5) ∧
    getCStar testOps propA 50 =
      some (testOps.sqrtf (3 * testOps.R / 5 * 4) /
        (3 * testOps.sqrtf (testOps.powf (2 / (3 + 1)) ((3 + 1) / (3 - 1))))) :=
  ⟨gcp_propA_50, getCStar_formula testOps propA 50 1 2 3 4 5 gcp_propA_50⟩

/-- C10: with an empty tab list every pressure/KN query raises — the
minimum and maximum valid pressures (`min`/`max` of an empty sequence),
the combustion-property lookup and therefore the burn rate and CStar
(KeyError on the empty closest record), and the pressure-from-KN query
(IndexError on the empty candidate list); `none` marks the raising
path. -/
theorem emptyTabs_all_queries_raise (ops : NumOps) (prop : Propellant)
    (pressure kn : ℚ) (h : prop.tabs = []) :
    getMinimumValidPressure prop = none ∧
    getMaximumValidPressure prop = none ∧
    getCombustionProperties prop pressure = none ∧
    getBurnRate ops prop pressure = none ∧
    getCStar ops prop pressure = none ∧
    getPressureFromKn ops prop kn = none := by
  refine ⟨?_, ?_, ?_, ?_, ?_, ?_⟩ <;>
    simp [getMinimumValidPressure, getMaximumValidPressure,
      getCombustionProperties, getBurnRate, getCStar, getPressureFromKn,
      gcpGo, pfkGo, sortStable, h]

/-- Evaluation witness: the empty-tab propellant raises on every
query. -/
theorem emptyTabs_all_queries_raise_witness :
    propEmpty.tabs = [] ∧ getPressureFromKn testOps propEmpty 250 = none :=
  ⟨rfl, (emptyTabs_all_queries_raise testOps propEmpty 1 250 rfl).2.2.2.2.2⟩

/-- C9: every query is pure — in state-passing form the post-state is
the input propellant, and an immediate second call on the returned state
yields the same result. -/
theorem queries_pure (ops : NumOps) (prop : Propellant) (pressure kn : ℚ) :
    ((getCStar_st ops prop pressure).2 = prop ∧
      (getCStar_st ops (getCStar_st ops prop pressure).2 pressure).1 =
        (getCStar_st ops prop pressure).1) ∧
    ((getBurnRate_st ops prop pressure).2 = prop ∧
      (getBurnRate_st ops (getBurnRate_st ops prop pressure).2 pressure).1 =
        (getBurnRate_st ops prop pressure).1) ∧
    ((getPressureFromKn_st ops prop kn).2 = prop ∧
      (getPressureFromKn_st ops (getPressureFromKn_st ops prop kn).2 kn).1 =
        (getPressureFromKn_st ops prop kn).1) ∧
    ((getKnFromPressure_st ops prop pressure).2 = prop ∧
      (getKnFromPressure_st ops (getKnFromPressure_st ops prop pressure).2 pressure).1 =
        (getKnFromPressure_st ops prop pressure).1) ∧
    ((getCombustionProperties_st prop pressure).2 = prop ∧
      (getCombustionProperties_st (getCombustionProperties_st prop pressure).2 pressure).1 =
        (getCombustionProperties_st prop pressure).1) ∧
    ((getMinimumValidPressure_st prop).2 = prop ∧
      (getMinimumValidPressure_st (getMinimumValidPressure_st prop).2).1 =
        (getMinimumValidPressure_st prop).1) ∧
    ((getMaximumValidPressure_st prop).2 = prop ∧
      (getMaximumValidPressure_st (getMaximumValidPressure_st prop).2).1 =
        (getMaximumValidPressure_st prop).1) ∧
    ((getErrors_st prop).2 = prop ∧
      (getErrors_st (getErrors_st prop).2).1 = (getErrors_st prop).1) ∧
    ((getPressureErrors_st prop pressure).2 = prop ∧
      (getPressureErrors_st (getPressureErrors_st prop pressure).2 pressure).1 =
        (getPressureErrors_st prop pressure).1) :=
  ⟨⟨rfl, rfl⟩, ⟨rfl, rfl⟩, ⟨rfl, rfl⟩, ⟨rfl, rfl⟩, ⟨rfl, rfl⟩, ⟨rfl, rfl⟩,
    ⟨rfl, rfl⟩, ⟨rfl, rfl⟩, ⟨rfl, rfl⟩⟩

/-- Head of a stable insertion: the inserted element wins only when its
key is at most the current head's key. -/
theorem head?_insSorted (x : ℚ × ℚ) (l : List (ℚ × ℚ)) :
    (insSorted x l).head? = some (match l with
      | [] => x
      | y :: _ => if x.1 ≤ y.1 then x else y) := by
  cases l with
  | nil => rfl
  | cons y ys =>
    simp only [insSorted]
    split <;> rfl

/-- The head of the stable sort is the first key-minimiser. -/
theorem head?_sortStable (l : List (ℚ × ℚ)) : (sortStable l).head? = firstMinBy l := by
  induction l with
  | nil => rfl
  | cons x xs ih =>
    simp only [sortStable, firstMinBy]
    rw [head?_insSorted]
    rcases h : sortStable xs with _ | ⟨y, ys⟩ <;> rw [h] at ih <;>
      simp only [List.head?_nil, List.head?_cons] at ih <;> rw [← ih]
    by_cases hxy : x.1 ≤ y.1 <;> simp [hxy]

/-- A non-empty candidate list always has a first key-minimiser. -/
theorem firstMinBy_isSome (x : ℚ × ℚ) (xs : List (ℚ × ℚ)) :
    (firstMinBy (x :: xs)).isSome = true := by
  simp only [firstMinBy]
  rcases h : firstMinBy xs with _ | m
  · rfl
  · show (if x.1 ≤ m.1 then some x else some m).isSome = true
    split <;> rfl

/-- The candidate tuple recorded by the source loop equals the claim's
`(distance to nearest boundary, pressure)` pair. -/
theorem candTuple_eq (tp : ℚ) (t : Tab) :
    ((min |t.minPressure - tp| |tp - t.maxPressure|, tp) : ℚ × ℚ) =
      (boundaryDist tp t, tp) := by
  simp [boundaryDist, abs_sub_comm t.minPressure tp]

/-- Full characterisation of the `getPressureFromKn` loop: from an
arbitrary candidate accumulator, it returns the first accepted tab's
computed pressure, and otherwise the pressure of the first
distance-minimising candidate. -/
theorem pfkGo_spec (ops : NumOps) (prop : Propellant) (kn : ℚ) :
    ∀ (ts : List Tab) (acc : List (ℚ × ℚ)),
      pfkGo ops prop kn ts acc =
        match ts.find? (fun t => decide (acceptTab ops prop kn t)) with
        | some t => some (pfkPressure ops prop.density kn t)
        | none =>
          (firstMinBy (acc ++ ts.map (fun t =>
            (boundaryDist (pfkPressure ops prop.density kn t) t,
              pfkPressure ops prop.density kn t)))).map (·.2) := by
  intro ts
  induction ts with
  | nil =>
    intro acc
    simp only [pfkGo, List.find?_nil, List.map_nil, List.append_nil]
    rw [head?_sortStable]
  | cons t rest ih =>
    intro acc
    by_cases hacc : acceptTab ops prop kn t
    · rw [List.find?_cons_of_pos _ (by simpa using hacc)]
      simp only [pfkGo]
      split_ifs with hc1 hc2 hc3
      · rfl
      · rfl
      · rfl
      · exact absurd hacc (by simp only [acceptTab]; tauto)
    · rw [List.find?_cons_of_neg _ (by simpa using hacc)]
      simp only [acceptTab, not_or] at hacc
      simp only [pfkGo]
      rw [if_neg hacc.1, if_neg hacc.2.1, if_neg hacc.2.2, ih, candTuple_eq]
      have hl : (acc ++ [(boundaryDist (pfkPressure ops prop.density kn t) t,
            pfkPressure ops prop.density kn t)]) ++ rest.map (fun u =>
              (boundaryDist (pfkPressure ops prop.density kn u) u,
                pfkPressure ops prop.density kn u)) =
          acc ++ (t :: rest).map (fun u =>
            (boundaryDist (pfkPressure ops prop.density kn u) u,
              pfkPressure ops prop.density kn u)) := by
        simp
      rw [hl]

/-- C2: `getPressureFromKn` computes each tab's pressure in stored
order, returns the first tab accepted by conditions (a), (b), (c), and
otherwise the pressure of the candidate with smallest distance to its
nearest boundary (ties to the first in stored order); with a non-empty
tab list it always returns a value. -/
theorem getPressureFromKn_spec (ops : NumOps) (prop : Propellant) (kn : ℚ) :
    getPressureFromKn ops prop kn = pressureFromKnSpec ops prop kn ∧
    (prop.tabs ≠ [] → (getPressureFromKn ops prop kn).isSome = true) := by
  have heq : getPressureFromKn ops prop kn = pressureFromKnSpec ops prop kn := by
    rw [getPressureFromKn, pfkGo_spec, pressureFromKnSpec]
    rcases hf : prop.tabs.find? (fun t => decide (acceptTab ops prop kn t)) with _ | u
    · simp
    · rfl
  refine ⟨heq, fun hne => ?_⟩
  rw [heq, pressureFromKnSpec]
  rcases hf : prop.tabs.find? (fun t => decide (acceptTab ops prop kn t)) with _ | u
  · rcases hts : prop.tabs with _ | ⟨t, ts⟩
    · exact absurd hts hne
    · simp only [List.map_cons]
      have hs := firstMinBy_isSome
        (boundaryDist (pfkPressure ops prop.density kn t) t,
          pfkPressure ops prop.density kn t)
        (ts.map (fun u => (boundaryDist (pfkPressure ops prop.density kn u) u,
          pfkPressure ops prop.density kn u)))
      rcases Option.isSome_iff_exists.mp hs with ⟨v, hv⟩
      rw [hv]
      rfl
  · rfl

/-- Evaluation witness: the pressure-from-KN query on a concrete
single-tab propellant returns a value. -/
theorem getPressureFromKn_spec_witness :
    propA.tabs ≠ [] ∧ (getPressureFromKn testOps propA 250).isSome = true :=
  ⟨by decide, (getPressureFromKn_spec testOps propA 250).2 (by decide)⟩

/-- An alert occurs zero times in the empty list. -/
theorem countAlert_nil (a : SimAlert) : countAlert a [] = 0 := rfl

/-- Occurrence count of an alert in a one-element list. -/
theorem countAlert_singleton (a b : SimAlert) :
    countAlert a [b] = if b = a then 1 else 0 := by
  simp [countAlert, List.countP_cons]

/-- Occurrence counts add over list concatenation. -/
theorem countAlert_append (a : SimAlert) (l1 l2 : List SimAlert) :
    countAlert a (l1 ++ l2) = countAlert a l1 + countAlert a l2 := by
  simp [countAlert, List.countP_append]

/-- Occurrence counts over a flatMap are the sum of the per-element
counts. -/
theorem countAlert_flatMap {β : Type} (a : SimAlert) (l : List β)
    (f : β → List SimAlert) :
    countAlert a (l.flatMap f) = (l.map fun x => countAlert a (f x)).sum := by
  induction l with
  | nil => rfl
  | cons x xs ih =>
    show countAlert a (f x ++ xs.flatMap f) = _
    rw [countAlert_append, ih, List.map_cons, List.sum_cons]

/-- One step of Python's `enumerate`. -/
theorem enumFrom_cons (n : ℕ) (t : Tab) (ts : List Tab) :
    List.enumFrom n (t :: ts) = (n, t) :: List.enumFrom (n + 1) ts := rfl

/-- Summing a one-hot indicator over an enumerated list: the result is 1
exactly when the target index is in range and its element satisfies the
predicate. -/
theorem sum_enumFrom_indicator (q : ℕ → Tab → Bool) (i : ℕ) :
    ∀ (ts : List Tab) (n : ℕ),
      ((List.enumFrom n ts).map (fun p =>
        if p.1 = i ∧ q p.1 p.2 = true then 1 else 0)).sum
        = if n ≤ i ∧ ((ts.get? (i - n)).map (q i)).getD false = true then 1 else 0 := by
  intro ts
  induction ts with
  | nil => intro n; simp
  | cons t rest ih =>
    intro n
    rw [enumFrom_cons, List.map_cons, List.sum_cons, ih]
    by_cases hni : n = i
    · subst hni
      have h1 : ¬(n + 1 ≤ n ∧ ((rest.get? (n - (n + 1))).map (q n)).getD false = true) :=
        fun hc => absurd hc.1 (by omega)
      rw [if_neg h1]
      by_cases hq : q n t = true
      · rw [if_pos ⟨rfl, hq⟩]
        simp [Nat.sub_self, hq]
      · rw [if_neg (fun hc => hq hc.2)]
        simp [Nat.sub_self, hq]
    · rw [if_neg (fun hc => hni hc.1)]
      rcases Nat.lt_or_ge n i with hlt | hge
      · have h2 : i - n = (i - (n + 1)) + 1 := by omega
        have h3 : n + 1 ≤ i := hlt
        have h4 : n ≤ i := Nat.le_of_lt hlt
        rw [Nat.zero_add, h2]
        simp [h3, h4]
      · have hgt : i < n := lt_of_le_of_ne hge fun h => hni h.symm
        have h1 : ¬(n + 1 ≤ i) := by omega
        have h2 : ¬(n ≤ i) := by omega
        rw [Nat.zero_add, if_neg (fun hc => h1 hc.1), if_neg (fun hc => h2 hc.1)]

/-- Every alert produced by the inner overlap loop is an overlap alert
of the outer tab. -/
theorem mem_overlapAlertsFor {x : SimAlert} {tabId : ℕ} {tab : Tab}
    {p : ℕ × Tab} (hx : x ∈ overlapAlertsFor tabId tab p) :
    x = overlapAlert tabId p.1 := by
  unfold overlapAlertsFor at hx
  split at hx
  · simpa using hx
  · simp at hx

/-- Per-pair occurrence count of a matching overlap alert in the inner
loop's output. -/
theorem countAlert_overlapAlertsFor (tabId j : ℕ) (tab : Tab) (p : ℕ × Tab) :
    countAlert (overlapAlert tabId j) (overlapAlertsFor tabId tab p) =
      if p.1 = j ∧ (decide (tabId ≠ p.1) && decide (p.2.minPressure < tab.maxPressure) &&
        decide (tab.maxPressure < p.2.maxPressure)) = true then 1 else 0 := by
  unfold overlapAlertsFor
  by_cases h1 : tabId ≠ p.1 ∧ p.2.minPressure < tab.maxPressure ∧
      tab.maxPressure < p.2.maxPressure
  · rw [if_pos h1, countAlert_singleton]
    by_cases hj : p.1 = j
    · subst hj
      simp [overlapAlert, h1.1, h1.2.1, h1.2.2]
    · have hne : ¬(overlapAlert tabId p.1 = overlapAlert tabId j) := by
        simp [overlapAlert]
        omega
      rw [if_neg hne, if_neg (fun hc => hj hc.1)]
  · rw [if_neg h1, countAlert_nil]
    rw [eq_comm]
    simp only [ite_eq_right_iff, one_ne_zero, imp_false, not_and]
    intro hj hq
    simp only [Bool.and_eq_true, decide_eq_true_eq] at hq
    exact h1 ⟨hq.1.1, hq.1.2, hq.2⟩

/-- Occurrence count of the overlap alert `(i, j)` in the whole inner
loop run for the pair `(tabId, tab)`. -/
theorem countAlert_overlapPart (tabs : List Tab) (tabId : ℕ) (tab : Tab) (i j : ℕ) :
    countAlert (overlapAlert i j)
        ((List.enumFrom 0 tabs).flatMap (overlapAlertsFor tabId tab)) =
      if tabId = i ∧ (((tabs.get? j).map (fun ot =>
        decide (tabId ≠ j) && decide (ot.minPressure < tab.maxPressure) &&
          decide (tab.maxPressure < ot.maxPressure))).getD false) = true then 1 else 0 := by
  by_cases hti : tabId = i
  · subst hti
    rw [countAlert_flatMap]
    simp only [countAlert_overlapAlertsFor]
    rw [sum_enumFrom_indicator (fun oid ot =>
      decide (tabId ≠ oid) && decide (ot.minPressure < tab.maxPressure) &&
        decide (tab.maxPressure < ot.maxPressure)) j tabs 0]
    simp
  · rw [countAlert, List.countP_eq_zero.mpr, if_neg (fun hc => hti hc.1)]
    intro x hx
    simp only [List.mem_flatMap] at hx
    obtain ⟨p, _, hxp⟩ := hx
    have := mem_overlapAlertsFor hxp
    subst this
    simp [overlapAlert]
    omega

/-- Occurrence count of a degenerate alert in one outer-loop step. -/
theorem countAlert_errorsFor_deg (tabs : List Tab) (tabId : ℕ) (tab : Tab) (i : ℕ) :
    countAlert (degAlert i) (errorsFor tabs tabId tab) =
      if tabId = i ∧ (decide (tab.maxPressure = tab.minPressure)) = true then 1 else 0 := by
  unfold errorsFor
  rw [countAlert_append, countAlert_append]
  have hover : countAlert (degAlert i)
      ((List.enumFrom 0 tabs).flatMap (overlapAlertsFor tabId tab)) = 0 := by
    rw [countAlert, List.countP_eq_zero.mpr]
    intro x hx
    simp only [List.mem_flatMap] at hx
    obtain ⟨p, _, hxp⟩ := hx
    have := mem_overlapAlertsFor hxp
    subst this
    simp [overlapAlert, degAlert]
  have hrev : countAlert (degAlert i)
      (if tab.maxPressure < tab.minPressure then [revAlert tabId] else []) = 0 := by
    split
    · rw [countAlert_singleton, if_neg]
      simp [revAlert, degAlert]
    · rfl
  rw [hover, hrev]
  simp only [Nat.add_zero]
  by_cases hd : tab.maxPressure = tab.minPressure <;> by_cases hti : tabId = i
  · subst hti
    rw [if_pos hd, countAlert_singleton]
    simp [degAlert, hd]
  · rw [if_pos hd, countAlert_singleton]
    have hne : ¬(degAlert tabId = degAlert i) := by
      simp [degAlert]
      omega
    rw [if_neg hne, if_neg (fun hc => hti hc.1)]
  · subst hti
    rw [if_neg hd, countAlert_nil,
      if_neg (fun hc => hd (by simpa using hc.2))]
  · rw [if_neg hd, countAlert_nil, if_neg (fun hc => hti hc.1)]

/-- Occurrence count of a reversed-limits alert in one outer-loop
step. -/
theorem countAlert_errorsFor_rev (tabs : List Tab) (tabId : ℕ) (tab : Tab) (i : ℕ) :
    countAlert (revAlert i) (errorsFor tabs tabId tab) =
      if tabId = i ∧ (decide (tab.maxPressure < tab.minPressure)) = true then 1 else 0 := by
  unfold errorsFor
  rw [countAlert_append, countAlert_append]
  have hover : countAlert (revAlert i)
      ((List.enumFrom 0 tabs).flatMap (overlapAlertsFor tabId tab)) = 0 := by
    rw [countAlert, List.countP_eq_zero.mpr]
    intro x hx
    simp only [List.mem_flatMap] at hx
    obtain ⟨p, _, hxp⟩ := hx
    have := mem_overlapAlertsFor hxp
    subst this
    simp [overlapAlert, revAlert]
  have hdeg : countAlert (revAlert i)
      (if tab.maxPressure = tab.minPressure then [degAlert tabId] else []) = 0 := by
    split
    · rw [countAlert_singleton, if_neg]
      simp [revAlert, degAlert]
    · rfl
  rw [hover, hdeg]
  simp only [Nat.add_zero, Nat.zero_add]
  by_cases hd : tab.maxPressure < tab.minPressure <;> by_cases hti : tabId = i
  · subst hti
    rw [if_pos hd, countAlert_singleton]
    simp [revAlert, hd]
  · rw [if_pos hd, countAlert_singleton]
    have hne : ¬(revAlert tabId = revAlert i) := by
      simp [revAlert]
      omega
    rw [if_neg hne, if_neg (fun hc => hti hc.1)]
  · subst hti
    rw [if_neg hd, countAlert_nil,
      if_neg (fun hc => hd (by simpa using hc.2))]
  · rw [if_neg hd, countAlert_nil, if_neg (fun hc => hti hc.1)]

/-- Occurrence count of an overlap alert in one outer-loop step. -/
theorem countAlert_errorsFor_overlap (tabs : List Tab) (tabId : ℕ) (tab : Tab)
    (i j : ℕ) :
    countAlert (overlapAlert i j) (errorsFor tabs tabId tab) =
      if tabId = i ∧ (((tabs.get? j).map (fun ot =>
        decide (tabId ≠ j) && decide (ot.minPressure < tab.maxPressure) &&
          decide (tab.maxPressure < ot.maxPressure))).getD false) = true then 1 else 0 := by
  unfold errorsFor
  rw [countAlert_append, countAlert_append]
  have hdeg : countAlert (overlapAlert i j)
      (if tab.maxPressure = tab.minPressure then [degAlert tabId] else []) = 0 := by
    split
    · rw [countAlert_singleton, if_neg]
      simp [overlapAlert, degAlert]
    · rfl
  have hrev : countAlert (overlapAlert i j)
      (if tab.maxPressure < tab.minPressure then [revAlert tabId] else []) = 0 := by
    split
    · rw [countAlert_singleton, if_neg]
      simp [overlapAlert, revAlert]
    · rfl
  rw [hdeg, hrev, countAlert_overlapPart]
  simp only [Nat.zero_add]

/-- Exactly one degenerate alert per tab with equal pressure limits. -/
theorem count_deg_getErrors (prop : Propellant) (i : ℕ) :
    countAlert (degAlert i) (getErrors prop) =
      if degCond prop i = true then 1 else 0 := by
  rw [getErrors, countAlert_flatMap]
  simp only [countAlert_errorsFor_deg]
  rw [sum_enumFrom_indicator
    (fun _ tab => decide (tab.maxPressure = tab.minPressure)) i prop.tabs 0]
  simp [degCond]

/-- Exactly one reversed alert per tab with reversed pressure limits. -/
theorem count_rev_getErrors (prop : Propellant) (i : ℕ) :
    countAlert (revAlert i) (getErrors prop) =
      if revCond prop i = true then 1 else 0 := by
  rw [getErrors, countAlert_flatMap]
  simp only [countAlert_errorsFor_rev]
  rw [sum_enumFrom_indicator
    (fun _ tab => decide (tab.maxPressure < tab.minPressure)) i prop.tabs 0]
  simp [revCond]

/-- Exactly one overlap alert per ordered pair of distinct tabs whose
windows overlap in the checked direction. -/
theorem count_overlap_getErrors (prop : Propellant) (i j : ℕ) :
    countAlert (overlapAlert i j) (getErrors prop) =
      if overlapCond prop i j = true then 1 else 0 := by
  rw [getErrors, countAlert_flatMap]
  simp only [countAlert_errorsFor_overlap]
  rw [sum_enumFrom_indicator
    (fun tid tab => ((prop.tabs.get? j).map (fun ot =>
      decide (tid ≠ j) && decide (ot.minPressure < tab.maxPressure) &&
        decide (tab.maxPressure < ot.maxPressure))).getD false) i prop.tabs 0]
  simp [overlapCond]

/-- C4: `getErrors` emits exactly one degenerate alert per tab with
equal limits, exactly one reversed alert per tab with reversed limits,
and exactly one overlap alert per ordered pair of distinct tabs with
`other.minPressure < tab.maxPressure < other.maxPressure`; on the
specification's three test vectors it yields exactly the single expected
alert. -/
theorem getErrors_spec :
    (∀ (prop : Propellant) (i j : ℕ),
      countAlert (degAlert i) (getErrors prop) =
        (if degCond prop i = true then 1 else 0) ∧
      countAlert (revAlert i) (getErrors prop) =
        (if revCond prop i = true then 1 else 0) ∧
      countAlert (overlapAlert i j) (getErrors prop) =
        (if overlapCond prop i j = true then 1 else 0)) ∧
    getErrors propOverlap = [overlapAlert 0 1] ∧
    getErrors propDegenerate = [degAlert 0] ∧
    getErrors propReversed = [revAlert 0] :=
  ⟨fun prop i j => ⟨count_deg_getErrors prop i, count_rev_getErrors prop i,
    count_overlap_getErrors prop i j⟩, by decide, by decide, by decide⟩

end Motor

namespace Perimeter

/-- C3 fails as stated: a rank-1 raster with first dimension 5 raises an
IndexError from `image.shape[1]` inside the size check, not the claimed
rank error; and a rank-3 raster of shape (1, 5, 5) raises the 2x2 shape
error even though its rank is not 2, because the size check runs
first. -/
theorem find_perimeter_checks_counterexample :
    find_perimeter rank1Raster (1 / 2) = .error .indexError ∧
    ((Except.error FPError.indexError : Except FPError ℝ) ≠
      Except.error FPError.invalidDimension) ∧
    find_perimeter rank3Raster (1 / 2) = .error .invalidShape ∧
    ((Except.error FPError.invalidShape : Except FPError ℝ) ≠
      Except.error FPError.invalidDimension) := by
  refine ⟨rfl, by simp, rfl, by simp⟩

/-- C3 (amended): the size check on the first two dimensions runs before
the rank check, so a raster whose first dimension is below 2, or whose
second dimension exists and is below 2, fails with the shape error even
when the rank is not 2; a rank-0 raster, or a rank-1 raster with first
dimension at least 2, fails with an index error from dereferencing the
missing shape entry; only rasters whose first two dimensions are at
least 2 and whose rank exceeds 2 fail with the dimension error; all
failures are surfaced synchronously as errors of the call. -/
theorem find_perimeter_checks (img : Raster) (level : ℚ) :
    (find_perimeter img level = .error .invalidShape ↔
      (∃ d0 rest, img.shape = d0 :: rest ∧ d0 < 2) ∨
      (∃ d0 d1 rest, img.shape = d0 :: d1 :: rest ∧ 2 ≤ d0 ∧ d1 < 2)) ∧
    (find_perimeter img level = .error .indexError ↔
      img.shape = [] ∨ ∃ d0, img.shape = [d0] ∧ 2 ≤ d0) ∧
    (find_perimeter img level = .error .invalidDimension ↔
      ∃ d0 d1 rest, img.shape = d0 :: d1 :: rest ∧ 2 ≤ d0 ∧ 2 ≤ d1 ∧ rest ≠ []) ∧
    ((∃ r, find_perimeter img level = .ok r) ↔
      ∃ d0 d1, img.shape = [d0, d1] ∧ 2 ≤ d0 ∧ 2 ≤ d1) := by
  rcases img with ⟨shape, data⟩
  rcases shape with _ | ⟨d0, rest0⟩
  · simp [find_perimeter]
  rcases rest0 with _ | ⟨d1, rest1⟩
  · by_cases h0 : d0 < 2
    · simp [find_perimeter, h0]
    · simp [find_perimeter, h0]
      omega
  · by_cases h0 : d0 < 2
    · simp [find_perimeter, h0]
    · by_cases h1 : d1 < 2
      · simp [find_perimeter, h0, h1]
        exact ⟨d0, d1, ⟨rfl, rfl⟩, by omega, h1⟩
      · rcases rest1 with _ | ⟨d2, rest2⟩
        · simp [find_perimeter, h0, h1]
          exact ⟨fun _ => by omega,
            fun x x1 x2 _ _ h2 _ _ => h2,
            d0, d1, ⟨rfl, rfl⟩, by omega, by omega⟩
        · simp [find_perimeter, h0, h1]
          exact ⟨fun _ => by omega,
            d0, d1, d2 :: rest2, ⟨rfl, rfl, rfl⟩, by omega, by omega, by simp⟩

end Perimeter


namespace Perimeter

/-- The square root of one half is half the square root of two. -/
theorem sqrt_half : Real.sqrt (1 / 2) = Real.sqrt 2 / 2 := by
  have hm : Real.sqrt 2 * Real.sqrt 2 = 2 := Real.mul_self_sqrt (by norm_num)
  have hp : (0:ℝ) < Real.sqrt 2 := Real.sqrt_pos.mpr (by norm_num)
  rw [show (1 / 2 : ℝ) = 2⁻¹ by norm_num, Real.sqrt_inv]
  rw [eq_div_iff (by norm_num : (2:ℝ) ≠ 0), inv_mul_eq_div,
    div_eq_iff (ne_of_gt hp)]
  linarith [hm]

/-- The case table on a cell with only the upper-left corner above a
level of one half. -/
theorem cellSegments_ul :
    cellSegments (1/2) 1 0 0 0 = [((1/2, 0), (0, 1/2))] := by
  norm_num [cellSegments, interp]

/-- The case table on a cell with only the upper-right corner above. -/
theorem cellSegments_ur :
    cellSegments (1/2) 0 1 0 0 = [((1/2, 0), (1, 1/2))] := by
  norm_num [cellSegments, interp]

/-- The case table on a cell with only the lower-left corner above. -/
theorem cellSegments_ll :
    cellSegments (1/2) 0 0 1 0 = [((0, 1/2), (1/2, 1))] := by
  norm_num [cellSegments, interp]

/-- The case table on a cell with only the lower-right corner above. -/
theorem cellSegments_lr :
    cellSegments (1/2) 0 0 0 1 = [((1, 1/2), (1/2, 1))] := by
  norm_num [cellSegments, interp]

/-- Each single-corner crossing segment has length one half of the
square root of two. -/
theorem segLen_half_sqrt2 (p q : ℚ × ℚ)
    (hx : ((q.1 - p.1 : ℚ) : ℝ) ^ 2 = 1/4) (hy : ((q.2 - p.2 : ℚ) : ℝ) ^ 2 = 1/4) :
    segLen (p, q) = Real.sqrt 2 / 2 := by
  rw [segLen]
  simp only []
  rw [hx, hy, show (1/4 + 1/4 : ℝ) = 1/2 by norm_num, sqrt_half]

/-- A cell whose four corners all hold value zero emits no segments at
level one half. -/
theorem cellPerimAt_zero (data : ℕ → ℕ → ℚ) (r c : ℕ)
    (h00 : data r c = 0) (h01 : data r (c + 1) = 0)
    (h10 : data (r + 1) c = 0) (h11 : data (r + 1) (c + 1) = 0) :
    cellPerimAt data (1/2) r c = 0 := by
  unfold cellPerimAt
  rw [h00, h01, h10, h11]
  norm_num [cellSegments]

/-- A perimeter query whose only contributing cell is `(r0, c0)` returns
that cell's contribution. -/
theorem getPerimeter_single (h w r0 c0 : ℕ) (level : ℚ) (data : ℕ → ℕ → ℚ) (x : ℝ)
    (hr0 : r0 < h - 1) (hc0 : c0 < w - 1)
    (hz : ∀ r c, r < h - 1 → c < w - 1 → r ≠ r0 ∨ c ≠ c0 →
      cellPerimAt data level r c = 0)
    (hx : cellPerimAt data level r0 c0 = x) :
    getPerimeter h w data level = x := by
  rw [getPerimeter]
  have hrow : ∀ r ∈ Finset.range (h - 1),
      (∑ c ∈ Finset.range (w - 1), cellPerimAt data level r c)
        = if r = r0 then x else 0 := by
    intro r hr
    rw [Finset.mem_range] at hr
    by_cases hrr : r = r0
    · subst hrr
      rw [if_pos rfl]
      have hcol : ∀ c ∈ Finset.range (w - 1),
          cellPerimAt data level r c = if c = c0 then x else 0 := by
        intro c hc
        rw [Finset.mem_range] at hc
        by_cases hcc : c = c0
        · subst hcc; rw [if_pos rfl]; exact hx
        · rw [if_neg hcc]; exact hz r c hr hc (Or.inr hcc)
      rw [Finset.sum_congr rfl hcol,
        Finset.sum_ite_eq' (Finset.range (w - 1)) c0 (fun _ => x),
        if_pos (Finset.mem_range.mpr hc0)]
    · rw [if_neg hrr]
      apply Finset.sum_eq_zero
      intro c hc
      exact hz r c hr (Finset.mem_range.mp hc) (Or.inl hrr)
  rw [Finset.sum_congr rfl hrow,
    Finset.sum_ite_eq' (Finset.range (h - 1)) r0 (fun _ => x),
    if_pos (Finset.mem_range.mpr hr0)]

end Perimeter


namespace Perimeter

/-- Reduction of `find_perimeter` on a well-shaped rank-2 raster. -/
theorem find_perimeter_ok (img : Raster) (level : ℚ) (d0 d1 : ℕ)
    (hs : img.shape = [d0, d1]) (h0 : ¬ d0 < 2) (h1 : ¬ d1 < 2) :
    find_perimeter img level = .ok (getPerimeter d0 d1 img.data level) := by
  rcases img with ⟨shape, data⟩
  simp only at hs
  subst hs
  simp [find_perimeter, h0, h1]

/-- C8: on a raster of zeros with a single corner element set to 1, the
perimeter query at level one half returns half the square root of
two. -/
theorem find_perimeter_corner (h w ci cj : ℕ) (hh : 2 ≤ h) (hw : 2 ≤ w)
    (hci : ci = 0 ∨ ci = h - 1) (hcj : cj = 0 ∨ cj = w - 1) :
    find_perimeter (cornerRaster h w ci cj) (1/2) = .ok (Real.sqrt 2 / 2) := by
  have hnh : ¬ h < 2 := not_lt.mpr hh
  have hnw : ¬ w < 2 := not_lt.mpr hw
  rw [find_perimeter_ok (cornerRaster h w ci cj) (1/2) h w rfl hnh hnw]
  have hperim : getPerimeter h w (cornerRaster h w ci cj).data (1/2) =
      Real.sqrt 2 / 2 := by
    rcases hci with rfl | rfl <;> rcases hcj with rfl | rfl
    · -- upper-left corner: cell (0, 0)
      refine getPerimeter_single h w 0 0 _ _ _ (by omega) (by omega) ?_ ?_
      · intro r c hr hc hne
        refine cellPerimAt_zero _ r c ?_ ?_ ?_ ?_ <;>
          (simp only [cornerRaster]; rw [if_neg (by omega)])
      · unfold cellPerimAt
        have e00 : (cornerRaster h w 0 0).data 0 0 = 1 := by
          simp only [cornerRaster]
          rw [if_pos]
          refine ⟨?_, ?_⟩ <;> first | trivial | omega
        have e01 : (cornerRaster h w 0 0).data 0 (0 + 1) = 0 := by
          simp only [cornerRaster]; rw [if_neg (by omega)]
        have e10 : (cornerRaster h w 0 0).data (0 + 1) 0 = 0 := by
          simp only [cornerRaster]; rw [if_neg (by omega)]
        have e11 : (cornerRaster h w 0 0).data (0 + 1) (0 + 1) = 0 := by
          simp only [cornerRaster]; rw [if_neg (by omega)]
        rw [e00, e01, e10, e11, cellSegments_ul]
        simp only [List.map_cons, List.map_nil, List.sum_cons, List.sum_nil, add_zero]
        exact segLen_half_sqrt2 _ _ (by push_cast; norm_num) (by push_cast; norm_num)
    · -- upper-right corner: cell (0, w - 2)
      refine getPerimeter_single h w 0 (w - 2) _ _ _ (by omega) (by omega) ?_ ?_
      · intro r c hr hc hne
        refine cellPerimAt_zero _ r c ?_ ?_ ?_ ?_ <;>
          (simp only [cornerRaster]; rw [if_neg (by omega)])
      · unfold cellPerimAt
        have e00 : (cornerRaster h w 0 (w - 1)).data 0 (w - 2) = 0 := by
          simp only [cornerRaster]; rw [if_neg (by omega)]
        have e01 : (cornerRaster h w 0 (w - 1)).data 0 (w - 2 + 1) = 1 := by
          simp only [cornerRaster]
          rw [if_pos]
          refine ⟨?_, ?_⟩ <;> first | trivial | omega
        have e10 : (cornerRaster h w 0 (w - 1)).data (0 + 1) (w - 2) = 0 := by
          simp only [cornerRaster]; rw [if_neg (by omega)]
        have e11 : (cornerRaster h w 0 (w - 1)).data (0 + 1) (w - 2 + 1) = 0 := by
          simp only [cornerRaster]; rw [if_neg (by omega)]
        rw [e00, e01, e10, e11, cellSegments_ur]
        simp only [List.map_cons, List.map_nil, List.sum_cons, List.sum_nil, add_zero]
        exact segLen_half_sqrt2 _ _ (by push_cast; norm_num) (by push_cast; norm_num)
    · -- lower-left corner: cell (h - 2, 0)
      refine getPerimeter_single h w (h - 2) 0 _ _ _ (by omega) (by omega) ?_ ?_
      · intro r c hr hc hne
        refine cellPerimAt_zero _ r c ?_ ?_ ?_ ?_ <;>
          (simp only [cornerRaster]; rw [if_neg (by omega)])
      · unfold cellPerimAt
        have e00 : (cornerRaster h w (h - 1) 0).data (h - 2) 0 = 0 := by
          simp only [cornerRaster]; rw [if_neg (by omega)]
        have e01 : (cornerRaster h w (h - 1) 0).data (h - 2) (0 + 1) = 0 := by
          simp only [cornerRaster]; rw [if_neg (by omega)]
        have e10 : (cornerRaster h w (h - 1) 0).data (h - 2 + 1) 0 = 1 := by
          simp only [cornerRaster]
          rw [if_pos]
          refine ⟨?_, ?_⟩ <;> first | trivial | omega
        have e11 : (cornerRaster h w (h - 1) 0).data (h - 2 + 1) (0 + 1) = 0 := by
          simp only [cornerRaster]; rw [if_neg (by omega)]
        rw [e00, e01, e10, e11, cellSegments_ll]
        simp only [List.map_cons, List.map_nil, List.sum_cons, List.sum_nil, add_zero]
        exact segLen_half_sqrt2 _ _ (by push_cast; norm_num) (by push_cast; norm_num)
    · -- lower-right corner: cell (h - 2, w - 2)
      refine getPerimeter_single h w (h - 2) (w - 2) _ _ _ (by omega) (by omega) ?_ ?_
      · intro r c hr hc hne
        refine cellPerimAt_zero _ r c ?_ ?_ ?_ ?_ <;>
          (simp only [cornerRaster]; rw [if_neg (by omega)])
      · unfold cellPerimAt
        have e00 : (cornerRaster h w (h - 1) (w - 1)).data (h - 2) (w - 2) = 0 := by
          simp only [cornerRaster]; rw [if_neg (by omega)]
        have e01 : (cornerRaster h w (h - 1) (w - 1)).data (h - 2) (w - 2 + 1) = 0 := by
          simp only [cornerRaster]; rw [if_neg (by omega)]
        have e10 : (cornerRaster h w (h - 1) (w - 1)).data (h - 2 + 1) (w - 2) = 0 := by
          simp only [cornerRaster]; rw [if_neg (by omega)]
        have e11 : (cornerRaster h w (h - 1) (w - 1)).data (h - 2 + 1) (w - 2 + 1) = 1 := by
          simp only [cornerRaster]
          rw [if_pos]
          refine ⟨?_, ?_⟩ <;> first | trivial | omega
        rw [e00, e01, e10, e11, cellSegments_lr]
        simp only [List.map_cons, List.map_nil, List.sum_cons, List.sum_nil, add_zero]
        exact segLen_half_sqrt2 _ _ (by push_cast; norm_num) (by push_cast; norm_num)
  rw [hperim]

/-- Evaluation witness: the specification's 3x3 example raster with its
upper-left corner set returns half the square root of two. -/
theorem find_perimeter_corner_witness :
    2 ≤ 3 ∧ ((0:ℕ) = 0 ∨ (0:ℕ) = 3 - 1) ∧
    find_perimeter (cornerRaster 3 3 0 0) (1/2) = .ok (Real.sqrt 2 / 2) :=
  ⟨by decide, by decide,
    find_perimeter_corner 3 3 0 0 (by decide) (by decide)
      (by decide) (by decide)⟩

end Perimeter
